import Mathlib

/-!
Verification development for the kitten_skill terminal-summary tool
(`src/scripts/kitten_control.py`).  The pure decision logic — process
classification, SSH-target extraction, error scanning, age formatting,
virtualenv extraction and report synthesis — is shallowly embedded below;
external collaborators (the kitty remote-control transport, the git query,
the clock) are passed in as explicit parameters.
-/

/-! ## Python string primitives -/

/-- Python ASCII whitespace characters recognised by `str.strip()`. -/
def isPyWs (c : Char) : Bool :=
  c = ' ' || c = '\t' || c = '\n' || c = '\r' || c = '\x0b' || c = '\x0c'

/-- Python `str.strip()`. -/
def pyStrip (s : String) : String :=
  ⟨((s.data.dropWhile isPyWs).reverse.dropWhile isPyWs).reverse⟩

/-- Python `str.lower()` (ASCII case mapping). -/
def pyLower (s : String) : String :=
  ⟨s.data.map Char.toLower⟩

/-- Substring containment on char lists (Python `needle in hay`). -/
def containsCh (needle : List Char) : List Char → Bool
  | [] => needle.isEmpty
  | c :: cs => needle.isPrefixOf (c :: cs) || containsCh needle cs

/-- Python `needle in hay` for strings. -/
def containsSub (hay needle : String) : Bool :=
  containsCh needle.data hay.data

/-- Python `s.startswith(p)`. -/
def strStarts (s p : String) : Bool :=
  p.data.isPrefixOf s.data

/-- Python `s.split(sep)` for a single-character separator. -/
def splitChar (sep : Char) : List Char → List (List Char)
  | [] => [[]]
  | c :: cs =>
    let r := splitChar sep cs
    if c = sep then [] :: r
    else
      match r with
      | h :: t => (c :: h) :: t
      | [] => [[c]]

/-- Python `text.split('\n')`. -/
def splitLines (s : String) : List String :=
  (splitChar '\n' s.data).map (fun l => (⟨l⟩ : String))

/-- Python `s.split("/")[-1]` (path base name). -/
def lastSeg (s : String) : String :=
  ⟨(splitChar '/' s.data).getLastD []⟩

/-- Python `text.rstrip('\n')`. -/
def rstripNl (s : String) : String :=
  ⟨(s.data.reverse.dropWhile (· = '\n')).reverse⟩

/-- Decimal digit character for `n < 10`. -/
def digitChar : Nat → Char
  | 0 => '0' | 1 => '1' | 2 => '2' | 3 => '3' | 4 => '4'
  | 5 => '5' | 6 => '6' | 7 => '7' | 8 => '8' | _ => '9'

/-- Fuel-based decimal digits of a natural number (fuel `n + 1` always
suffices since the argument shrinks by a factor of 10 each step). -/
def natDigitsF : Nat → Nat → List Char
  | 0, _ => []
  | f + 1, n =>
    if n < 10 then [digitChar n]
    else natDigitsF f (n / 10) ++ [digitChar (n % 10)]

/-- Decimal rendering of a natural number (Python `str(n)` / f-string). -/
def natStr (n : Nat) : String :=
  ⟨natDigitsF (n + 1) n⟩

/-- Parse a list of decimal digit characters back to a number. -/
def parseDigits (ds : List Char) : Nat :=
  ds.foldl (fun a c => a * 10 + (c.toNat - 48)) 0

/-! ## `truncate` (source lines 51-58) -/

/-- The normalisation `truncate` applies before measuring: newlines become
spaces, carriage returns are removed, surrounding whitespace stripped. -/
def truncNorm (text : String) : List Char :=
  (pyStrip ⟨(text.data.map (fun c => if c = '\n' then ' ' else c)).filter
      (fun c => c ≠ '\r')⟩).data

/-- `truncate(text, max_len)`: truncate text with ellipsis. -/
def truncate (text : String) (max_len : Nat) : String :=
  if text = "" then ""
  else
    let t := truncNorm text
    if t.length > max_len then (⟨t.take (max_len - 3)⟩ : String) ++ "..."
    else ⟨t⟩

/-! ## Process classifier (`_categorize_process`, source lines 533-593) -/

/-- `KittenController._categorize_process`. -/
def _categorize_process (cmdline : List String) : String :=
  match cmdline with
  | [] => "unknown"
  | c0 :: _ =>
    let cmd := pyLower c0
    let full_cmd := pyLower (String.intercalate " " cmdline)
    let base := lastSeg cmd
    if (["zsh", "bash", "sh", "fish", "tcsh", "ksh", "-zsh", "-bash"]).contains base then
      "🐚 shell"
    else if (["vim", "nvim", "vi", "nano", "emacs", "code", "subl", "micro", "helix"]).contains base then
      "📝 editor"
    else if (["make", "cmake", "cargo", "go", "gcc", "clang", "rustc", "npm", "yarn", "pnpm", "gradle", "mvn"]).contains base then
      "🔨 build"
    else if (["pytest", "jest", "mocha", "rspec", "go"]).contains base || containsSub full_cmd "test" then
      "🧪 test"
    else if (["node", "python", "ruby", "java", "uvicorn", "gunicorn", "nginx", "postgres", "redis"]).contains base
        && (containsSub full_cmd "server" || containsSub full_cmd "serve" || containsSub full_cmd "run") then
      "🌐 server"
    else if base = "ssh" || containsSub full_cmd "ssh " then
      "🔗 ssh"
    else if (["codex", "claude", "aider", "copilot"]).contains base
        || containsSub full_cmd "codex" || containsSub full_cmd "claude" then
      "🤖 agent"
    else if base = "git" then
      "📦 git"
    else if (["docker", "podman", "kubectl", "k9s"]).contains base then
      "🐳 container"
    else if (["less", "more", "cat", "bat", "ranger", "mc", "htop", "top", "btop"]).contains base then
      "👁 viewer"
    else if base = "flutter" || containsSub full_cmd "flutter" then
      "📱 flutter"
    else if (["python", "python3", "node", "ruby", "perl"]).contains base then
      "⚡ script"
    else
      "💻 process"

/-! ## SSH target extraction (`_extract_ssh_target`, source lines 595-629) -/

/-- SSH options that consume a following argument (source line 614). -/
def sshValueFlags : List String :=
  ["-i", "-p", "-l", "-o", "-F", "-J", "-W", "-L", "-R", "-D"]

/-- The token walk of `_extract_ssh_target` (source lines 607-627); the
boolean is Python's `skip_next`. -/
def sshLoop : Bool → List String → Option String
  | _, [] => none
  | true, _ :: rest => sshLoop false rest
  | false, arg :: rest =>
    if sshValueFlags.contains arg then sshLoop true rest
    else if strStarts arg "-" then sshLoop false rest
    else if lastSeg arg = "ssh" then sshLoop false rest
    else some arg

/-- `KittenController._extract_ssh_target`. -/
def _extract_ssh_target (cmdline : List String) : Option String :=
  match cmdline with
  | [] => none
  | c0 :: _ =>
    let full_cmd := String.intercalate " " cmdline
    if !containsSub (pyLower full_cmd) "ssh " && lastSeg c0 ≠ "ssh" then none
    else sshLoop false cmdline

/-- The claim's applicability condition: the joined cmdline contains
"ssh " case-insensitively, or the first token's base name is "ssh". -/
def sshPrecond (cmdline : List String) : Bool :=
  match cmdline with
  | [] => false
  | c0 :: _ =>
    containsSub (pyLower (String.intercalate " " cmdline)) "ssh "
      || lastSeg c0 = "ssh"

/-- The claim's own description of the extraction: "returns the first
token remaining after skipping
the ssh invocation token (base name "ssh"), every flag token (leading "-"),
and the following value of each flag in the value-consuming set
-i,-p,-l,-o,-F,-J,-W,-L,-R,-D, or none if no such token exists".  The boolean
records that the previous token was a value-consuming flag. -/
def sshSpecWalk : Bool → List String → Option String
  | _, [] => none
  | true, _ :: rest => sshSpecWalk false rest
  | false, tok :: rest =>
    if sshValueFlags.contains tok then sshSpecWalk true rest
    else if strStarts tok "-" then sshSpecWalk false rest
    else if lastSeg tok = "ssh" then sshSpecWalk false rest
    else some tok

/-! ## A small regex engine for the fixed signature list

`_detect_errors` calls `re.search(pattern, line)` on a fixed list of
patterns.  The constructs those patterns use are: literal characters,
a leading `^` anchor, `\b` word boundaries, `\d` digits (with a literal
repetition written out), `.*`, and `c?`.  The engine below implements
exactly those, with Python's word-character test restricted to ASCII. -/

inductive RTok
  | lit (c : Char)
  | digit
  | anyStar
  | wb
  | opt (c : Char)
deriving DecidableEq

/-- Is an optional character a word character (for `\b`)? -/
def isWordOpt : Option Char → Bool
  | none => false
  | some c => c.isAlphanum || c = '_'

/-- Match a token list against a char list starting at the current position;
`prev` is the character just before the position (for `\b`).  Fuel-based:
every step either consumes a token or a character, so fuel
`toks.length + cs.length + 1` always suffices. -/
def matchToks : Nat → List RTok → Option Char → List Char → Bool
  | 0, _, _, _ => false
  | _ + 1, [], _, _ => true
  | f + 1, .lit c :: ts, _, d :: cs => d = c && matchToks f ts (some d) cs
  | _ + 1, .lit _ :: _, _, [] => false
  | f + 1, .digit :: ts, _, d :: cs => d.isDigit && matchToks f ts (some d) cs
  | _ + 1, .digit :: _, _, [] => false
  | f + 1, .opt c :: ts, prev, cs =>
    matchToks f ts prev cs ||
      (match cs with
       | d :: cs2 => d = c && matchToks f ts (some d) cs2
       | [] => false)
  | f + 1, .wb :: ts, prev, cs =>
    (isWordOpt prev != isWordOpt cs.head?) && matchToks f ts prev cs
  | f + 1, .anyStar :: ts, prev, cs =>
    matchToks f ts prev cs ||
      (match cs with
       | d :: cs2 => matchToks f (.anyStar :: ts) (some d) cs2
       | [] => false)

/-- Try to match at every position (unanchored `re.search`). -/
def searchFrom (ts : List RTok) : Option Char → List Char → Bool
  | prev, [] => matchToks (ts.length + 1) ts prev []
  | prev, d :: cs2 =>
    matchToks (ts.length + (d :: cs2).length + 1) ts prev (d :: cs2)
      || searchFrom ts (some d) cs2

/-- One entry of the error-pattern table: the Python pattern source string
(the deduplication key), its compiled form, and the description label. -/
structure PatEntry where
  src : String
  anchored : Bool
  toks : List RTok
  desc : String
deriving DecidableEq

/-- Python `re.search(pattern, s)` truthiness for a table entry. -/
def rsearch (p : PatEntry) (s : String) : Bool :=
  if p.anchored then matchToks (p.toks.length + s.data.length + 1) p.toks none s.data
  else searchFrom p.toks none s.data

/-- Literal-character tokens of a string. -/
def lits (s : String) : List RTok := s.data.map .lit

/-! ## Error scanner (`_detect_errors`, source lines 631-700) -/

/-- The fixed ordered pattern table (source lines 643-668). -/
def error_patterns : List PatEntry := [
  ⟨"^error:", true, lits "error:", "Error"⟩,
  ⟨"^error\\[", true, lits "error[", "Compiler error"⟩,
  ⟨"\\berror\\b.*:", false, [.wb] ++ lits "error" ++ [.wb, .anyStar, .lit ':'], "Error"⟩,
  ⟨"\\berror \\[", false, [.wb] ++ lits "error [", "Error"⟩,
  ⟨"^\\d\x7b2\x7d:\\d\x7b2\x7d:\\d\x7b2\x7d error", true,
    [.digit, .digit, .lit ':', .digit, .digit, .lit ':', .digit, .digit] ++ lits " error", "Error"⟩,
  ⟨"^exception:", true, lits "exception:", "Exception"⟩,
  ⟨"exception:", false, lits "exception:", "Exception"⟩,
  ⟨"^traceback", true, lits "traceback", "Python traceback"⟩,
  ⟨"^fatal:", true, lits "fatal:", "Fatal error"⟩,
  ⟨"^panic:", true, lits "panic:", "Panic/crash"⟩,
  ⟨"segmentation fault", false, lits "segmentation fault", "Segmentation fault"⟩,
  ⟨"^permission denied", true, lits "permission denied", "Permission denied"⟩,
  ⟨"command not found", false, lits "command not found", "Command not found"⟩,
  ⟨"^syntaxerror:", true, lits "syntaxerror:", "Syntax error"⟩,
  ⟨"compilation failed", false, lits "compilation failed", "Compilation failed"⟩,
  ⟨"build failed", false, lits "build failed", "Build failed"⟩,
  ⟨"tests? failed", false, lits "test" ++ [.opt 's'] ++ lits " failed", "Test failed"⟩,
  ⟨"^failed:", true, lits "failed:", "Failed"⟩,
  ⟨"npm err!", false, lits "npm err!", "NPM error"⟩,
  ⟨"unhandled.*exception", false, lits "unhandled" ++ [.anyStar] ++ lits "exception", "Unhandled exception"⟩,
  ⟨"unhandled.*rejection", false, lits "unhandled" ++ [.anyStar] ++ lits "rejection", "Unhandled rejection"⟩,
  ⟨"stack trace:", false, lits "stack trace:", "Stack trace"⟩,
  ⟨"^\\[error\\]", true, lits "[error]", "Error"⟩,
  ⟨"error:.*failed", false, lits "error:" ++ [.anyStar] ++ lits "failed", "Error"⟩]

/-- Shell-prompt glyphs whose lines are skipped (source line 677). -/
def promptGlyphs : List String := ["❯", "›", "$", "%", ">"]

/-- Log-level prefixes whose lines are skipped (source line 681). -/
def infoLevels : List String := ["info", "warn", "debug", "notice"]

/-- Strip ANSI colour codes: `re.sub(r'\x1b\[[0-9;]*m', '', s)`.  After
`ESC [`, the maximal run of digits/semicolons must be followed by `m`
(any shorter run would still be followed by a digit or semicolon, never
by `m`, so the greedy match is the only possible one). -/
def ansiTail (cs : List Char) : Option (List Char) :=
  match cs with
  | '[' :: r =>
    match r.dropWhile (fun c => c.isDigit || c = ';') with
    | 'm' :: r2 => some r2
    | _ => none
  | _ => none

/-- Fuel-based scan for `stripAnsi`; fuel `cs.length` suffices since each
step consumes at least one character. -/
def stripAnsiF : Nat → List Char → List Char
  | 0, cs => cs
  | _ + 1, [] => []
  | f + 1, c :: rest =>
    if c = '\x1b' then
      match ansiTail rest with
      | some rem => stripAnsiF f rem
      | none => c :: stripAnsiF f rest
    else c :: stripAnsiF f rest

/-- Remove ANSI colour escape sequences (source line 693). -/
def stripAnsi (s : String) : String :=
  ⟨stripAnsiF s.data.length s.data⟩

/-- The formatted error description appended for a firing pattern
(source lines 691-694). -/
def mkErr (p : PatEntry) (line : String) : String :=
  p.desc ++ ": `" ++ truncate (stripAnsi (pyStrip line)) 60 ++ "`"

/-- The last 30 lines of the text (source line 640). -/
def recentLines (text : String) : List String :=
  let lines := splitLines text
  lines.drop (lines.length - 30)

/-- The inner pattern loop (source lines 684-695): first pattern that is not
already in `seen` and matches the lowered line fires. -/
def firstFire (seen : List String) : List PatEntry → String → Option PatEntry
  | [], _ => none
  | p :: ps, ll =>
    if seen.contains p.src then firstFire seen ps ll
    else if rsearch p ll then some p
    else firstFire seen ps ll

/-- The line loop of `_detect_errors` (source lines 673-698), accumulating
the `seen_patterns` set and the `errors` list. -/
def detectLoop : List String → List String → List String → List String
  | _, errors, [] => errors
  | seen, errors, l :: ls =>
    let ll := pyStrip (pyLower l)
    if ll = "" || promptGlyphs.any (fun g => strStarts ll g) then
      detectLoop seen errors ls
    else if infoLevels.any (fun g => strStarts ll g) then
      detectLoop seen errors ls
    else
      match firstFire seen error_patterns ll with
      | some p =>
        let seen2 := seen ++ [p.src]
        let errors2 := errors ++ [mkErr p l]
        if errors2.length ≥ 3 then errors2 else detectLoop seen2 errors2 ls
      | none =>
        if errors.length ≥ 3 then errors else detectLoop seen errors ls

/-- `KittenController._detect_errors`. -/
def _detect_errors (text : String) : List String :=
  if text = "" then [] else detectLoop [] [] (recentLines text)

/-- Instrumented variant of the line loop that records which pattern fired
on which line, instead of the formatted strings. -/
def firedLoop : List String → List (PatEntry × String) → List String → List (PatEntry × String)
  | _, fired, [] => fired
  | seen, fired, l :: ls =>
    let ll := pyStrip (pyLower l)
    if ll = "" || promptGlyphs.any (fun g => strStarts ll g) then
      firedLoop seen fired ls
    else if infoLevels.any (fun g => strStarts ll g) then
      firedLoop seen fired ls
    else
      match firstFire seen error_patterns ll with
      | some p =>
        let seen2 := seen ++ [p.src]
        let fired2 := fired ++ [(p, l)]
        if fired2.length ≥ 3 then fired2 else firedLoop seen2 fired2 ls
      | none =>
        if fired.length ≥ 3 then fired else firedLoop seen fired ls

/-- The fired (pattern, line) events of a scan. -/
def detectFired (text : String) : List (PatEntry × String) :=
  if text = "" then [] else firedLoop [] [] (recentLines text)

/-! ## Age formatter (`_format_age`, source lines 732-750)

The Python code converts the nanosecond timestamp to a `datetime` and takes
`delta = datetime.now() - created`; `delta.days` is the whole-day part of the
difference and `delta.seconds` the remaining seconds.  The embedding works in
whole seconds of the nanosecond difference, with the current time passed in
as `now_ns`. -/

/-- `KittenController._format_age`. -/
def _format_age (created_at_ns : Nat) (now_ns : Nat) : String :=
  if created_at_ns = 0 then "unknown"
  else
    let totalSecs := (now_ns - created_at_ns) / 1000000000
    let days := totalSecs / 86400
    let seconds := totalSecs % 86400
    if days > 0 then natStr days ++ "d ago"
    else if seconds ≥ 3600 then natStr (seconds / 3600) ++ "h ago"
    else if seconds ≥ 60 then natStr (seconds / 60) ++ "m ago"
    else natStr seconds ++ "s ago"

/-- The time interval (in seconds) denoted by a formatted age string:
"Nd ago" denotes N days, "Nh ago" N hours, "Nm ago" N minutes,
"Ns ago" N seconds; anything else denotes 0. -/
def denoteAge (s : String) : Nat :=
  let ds := s.data.takeWhile Char.isDigit
  let rest := s.data.drop ds.length
  let n := parseDigits ds
  if rest = "d ago".data then n * 86400
  else if rest = "h ago".data then n * 3600
  else if rest = "m ago".data then n * 60
  else if rest = "s ago".data then n
  else 0

/-- The denotation of `_format_age` as a function of the whole-second
difference. -/
def ageSecs (s : Nat) : Nat :=
  if s / 86400 > 0 then (s / 86400) * 86400
  else if s % 86400 ≥ 3600 then ((s % 86400) / 3600) * 3600
  else if s % 86400 ≥ 60 then ((s % 86400) / 60) * 60
  else s % 86400

/-! ## Virtualenv extractor (`_get_virtualenv`, source lines 718-730) -/

/-- Python `env.get(key, "")` over an association list. -/
def lookupEnv (env : List (String × String)) (k : String) : String :=
  match env.find? (fun p => p.1 = k) with
  | some p => p.2
  | none => ""

/-- `KittenController._get_virtualenv`. -/
def _get_virtualenv (env : List (String × String)) : Option String :=
  let venv := lookupEnv env "VIRTUAL_ENV"
  if venv ≠ "" then some (lastSeg venv)
  else
    let conda := lookupEnv env "CONDA_DEFAULT_ENV"
    if conda ≠ "" && conda ≠ "base" then some ("conda:" ++ conda)
    else none

/-! ## Report synthesizer (`summary`, source lines 752-919)

The session tree mirrors the JSON structure `ls` returns; the external
collaborators (session listing, text retrieval, git query, clock) are the
fields of `Transport`. -/

structure ProcessInfo where
  pid : Nat
  cwd : String
  cmdline : List String
deriving DecidableEq

structure Window where
  id : Nat
  title : String
  cwd : String
  pid : Nat
  isFocused : Bool
  isActive : Bool
  isSelf : Bool
  atPrompt : Bool
  columns : Nat
  rows : Nat
  createdAt : Nat
  env : List (String × String)
  foregroundProcesses : List ProcessInfo
deriving DecidableEq

structure Tab where
  id : Nat
  title : String
  isActive : Bool
  layout : String
  windows : List Window
deriving DecidableEq

structure OSWindow where
  id : Nat
  isFocused : Bool
  tabs : List Tab
deriving DecidableEq

/-- The external collaborators of one `summary` invocation: the result of
the `ls` transport call (error message or session tree), the raw result of
each `get-text` transport call as (returncode, stdout, stderr) keyed by
window id and extent, the git branch query, and the clock. -/
structure Transport where
  lsResult : Except String (List OSWindow)
  getTextRaw : Nat → String → Nat × String × String
  gitBranch : String → Option String
  nowStr : String
  nowNs : Nat

/-- `KittenController.get_text` (source lines 181-199): on a non-zero
return code the failure is surfaced as the string "Error: {stderr}". -/
def get_text (tp : Transport) (winId : Nat) (extent : String) : String :=
  let r := tp.getTextRaw winId extent
  if r.1 ≠ 0 then "Error: " ++ r.2.2 else r.2.1

/-- Accumulator of the summary traversal: the output parts and the three
aggregates (source lines 768-776). -/
structure SumSt where
  parts : List String
  windowCount : Nat
  ready : List Nat
  errWins : List Nat
deriving DecidableEq

/-- Per-window body of the traversal (source lines 788-907). -/
def processWindow (tp : Transport) (lines : Nat) (extent : String)
    (exclude_self : Bool) (tab : Tab) (st : SumSt) (win : Window) : SumSt :=
  if exclude_self && win.isSelf then st
  else
    let fg := win.foregroundProcesses.head?
    let fg_cmd := match fg with | some p => p.cmdline | none => []
    let fg_cwd := match fg with | some p => p.cwd | none => win.cwd
    let fg_pid := match fg with | some p => p.pid | none => win.pid
    let process_type := _categorize_process fg_cmd
    let fg_cmd_str := if fg_cmd.isEmpty then "shell" else String.intercalate " " fg_cmd
    let ssh_target := _extract_ssh_target fg_cmd
    let git_branch := tp.gitBranch fg_cwd
    let venv := _get_virtualenv win.env
    let session_age := _format_age win.createdAt tp.nowNs
    let status :=
      if win.isFocused then "🟢 FOCUSED"
      else if win.isActive then "🟡 ACTIVE"
      else "⚪ IDLE"
    let ready := if win.atPrompt then st.ready ++ [win.id] else st.ready
    let prompt_indicator := if win.atPrompt then "✅ READY" else "⏳ BUSY"
    let header := "## Window " ++ natStr win.id ++ " | " ++ status ++ " | "
      ++ prompt_indicator ++ " | " ++ process_type ++ "\n"
    let tableRows :=
      ["| Property | Value |",
       "|----------|-------|",
       "| **Window ID** | `" ++ natStr win.id ++ "` |",
       "| **Status** | " ++ prompt_indicator ++ " - "
         ++ (if win.atPrompt then "Can receive commands" else "Running a process") ++ " |",
       "| **Process** | " ++ process_type ++ " |",
       "| **Tab** | " ++ natStr tab.id ++ " (" ++ truncate tab.title 30 ++ ") |",
       "| **Size** | " ++ natStr win.columns ++ "x" ++ natStr win.rows ++ " |",
       "| **CWD** | `" ++ fg_cwd ++ "` |",
       "| **PID** | " ++ natStr fg_pid ++ " |",
       "| **Command** | `" ++ truncate fg_cmd_str 50 ++ "` |",
       "| **Session Age** | " ++ session_age ++ " |"]
      ++ (match git_branch with
          | some b => ["| **Git Branch** | `" ++ b ++ "` |"]
          | none => [])
      ++ (match ssh_target with
          | some s => ["| **SSH Target** | `" ++ s ++ "` |"]
          | none => [])
      ++ (match venv with
          | some v => ["| **Virtual Env** | `" ++ v ++ "` |"]
          | none => [])
      ++ [""]
    let text := get_text tp win.id extent
    let errors := if text ≠ "" then _detect_errors text else []
    let errWins := if errors ≠ [] then st.errWins ++ [win.id] else st.errWins
    let errParts :=
      if errors ≠ [] then
        ["**⚠️ Errors Detected:**"] ++ errors.map (fun e => "- " ++ e) ++ [""]
      else []
    let quick :=
      ["**Quick commands:**",
       "- Send text: `send-text -w " ++ natStr win.id ++ " -e \"your command\"`",
       "- Send Ctrl+C: `send-key -w " ++ natStr win.id ++ " ctrl+c`",
       "- Get more output: `get-text -w " ++ natStr win.id ++ " -e all`",
       "- Focus: `focus -w " ++ natStr win.id ++ "`",
       ""]
    let tailParts :=
      if text ≠ "" && !strStarts text "Error:" then
        let text_lines := splitLines (rstripNl text)
        if text_lines.length > lines then
          ["*(...truncated, showing last " ++ natStr lines ++ " lines)*\n",
           "```",
           String.intercalate "\n" (text_lines.drop (text_lines.length - lines)),
           "```"]
        else
          ["```", String.intercalate "\n" text_lines, "```"]
      else ["*No output available*"]
    ⟨st.parts ++ [header] ++ tableRows ++ errParts ++ quick ++ tailParts ++ ["\n---\n"],
     st.windowCount + 1, ready, errWins⟩

/-- The fixed header parts of the report (source lines 769-772). -/
def summaryHeader (tp : Transport) (lines : Nat) (extent : String) : List String :=
  ["# Kitty Terminal Summary\n",
   "*Generated: " ++ tp.nowStr ++ "*\n",
   "*Showing last " ++ natStr lines ++ " lines from each window (extent: " ++ extent ++ ")*\n",
   "---\n"]

/-- `KittenController.summary`. -/
def summary (tp : Transport) (lines : Nat) (extent : String)
    (exclude_self : Bool) : String :=
  match tp.lsResult with
  | .error e => "Error: " ++ e
  | .ok data =>
    let st0 : SumSt := ⟨summaryHeader tp lines extent, 0, [], []⟩
    let st := data.foldl
      (fun s osw => osw.tabs.foldl
        (fun s2 tab => tab.windows.foldl
          (processWindow tp lines extent exclude_self tab) s2) s) st0
    let finalParts :=
      if st.windowCount = 0 then
        st.parts ++ ["*No windows found (or all windows excluded)*"]
      else
        st.parts
        ++ ["\n## Summary\n",
            "- **Total windows:** " ++ natStr st.windowCount,
            "- **Ready for input:** " ++ natStr st.ready.length ++ " windows: "
              ++ String.intercalate ", " ((st.ready.take 10).map natStr)]
        ++ (if st.errWins ≠ [] then
              ["- **⚠️ Windows with errors:** " ++ natStr st.errWins.length
                ++ " windows: " ++ String.intercalate ", " (st.errWins.map natStr)]
            else [])
    String.intercalate "\n" finalParts

/-! ## Concrete transports used by the witnesses and the counterexample -/

def selfWin : Window := ⟨7, "", "", 0, false, false, true, false, 80, 24, 0, [], []⟩

def selfTree : List OSWindow := [⟨1, false, [⟨1, "tab", true, "stack", [selfWin]⟩]⟩]

def tpSelf : Transport :=
  ⟨.ok selfTree, fun _ _ => (0, "", ""), fun _ => none, "2026-10-12 00:00:00", 0⟩

def tpLsFail : Transport :=
  ⟨.error "Command timed out", fun _ _ => (0, "", ""), fun _ => none, "t", 0⟩

def plainWin : Window := ⟨1, "", "", 0, false, false, false, false, 80, 24, 0, [], []⟩

def tpTextFail : Transport :=
  ⟨.ok [⟨1, false, [⟨1, "tab", true, "stack", [plainWin]⟩]⟩],
   fun _ _ => (1, "", "Command timed out"), fun _ => none, "t", 0⟩

/-! ## Helper lemmas: SSH extraction -/

lemma sshLoop_eq_spec : ∀ (l : List String) (b : Bool), sshLoop b l = sshSpecWalk b l := by
  intro l
  induction l with
  | nil => intro b; cases b <;> rfl
  | cons a rest ih =>
    intro b
    cases b with
    | true => simpa only [sshLoop, sshSpecWalk] using ih false
    | false =>
      simp only [sshLoop, sshSpecWalk]
      split_ifs <;> first | exact ih true | exact ih false | rfl

lemma sshLoop_sound : ∀ (l : List String) (b : Bool) (t : String),
    sshLoop b l = some t →
    t ∈ l ∧ strStarts t "-" = false ∧ lastSeg t ≠ "ssh" := by
  intro l
  induction l with
  | nil => intro b t h; cases b <;> simp [sshLoop] at h
  | cons a rest ih =>
    intro b t h
    cases b with
    | true =>
      simp only [sshLoop] at h
      rcases ih false t h with ⟨h1, h2, h3⟩
      exact ⟨List.mem_cons_of_mem _ h1, h2, h3⟩
    | false =>
      simp only [sshLoop] at h
      split_ifs at h with hf hd hs
      · rcases ih true t h with ⟨h1, h2, h3⟩
        exact ⟨List.mem_cons_of_mem _ h1, h2, h3⟩
      · rcases ih false t h with ⟨h1, h2, h3⟩
        exact ⟨List.mem_cons_of_mem _ h1, h2, h3⟩
      · rcases ih false t h with ⟨h1, h2, h3⟩
        exact ⟨List.mem_cons_of_mem _ h1, h2, h3⟩
      · cases h
        exact ⟨List.mem_cons_self _ _, by simpa using hd, hs⟩

lemma extract_eq (c0 : String) (rest : List String) :
    _extract_ssh_target (c0 :: rest)
      = if (!containsSub (pyLower (String.intercalate " " (c0 :: rest))) "ssh "
            && decide (lastSeg c0 ≠ "ssh")) = true
        then none else sshLoop false (c0 :: rest) := rfl

/-! ## Claim C5 -/

/-- C5: for every cmdline containing "ssh " case-insensitively or whose first
token has base name "ssh", `_extract_ssh_target` returns exactly what the
spec's walk describes (first token left after skipping the ssh invocation
token, flag tokens, and the value of each value-consuming flag); in
particular `["ssh", "-i", "/k.pem", "-p", "2222", "prod.example.com"]`
yields "prod.example.com". -/
theorem ssh_target_follows_spec :
    (∀ cmdline : List String, sshPrecond cmdline = true →
      _extract_ssh_target cmdline = sshSpecWalk false cmdline) ∧
    _extract_ssh_target ["ssh", "-i", "/k.pem", "-p", "2222", "prod.example.com"]
      = some "prod.example.com" := by
  constructor
  · intro cmdline h
    match cmdline with
    | [] => simp [sshPrecond] at h
    | c0 :: rest =>
      simp only [sshPrecond, Bool.or_eq_true, decide_eq_true_eq] at h
      rw [extract_eq, sshLoop_eq_spec]
      have hg : ¬((!containsSub (pyLower (String.intercalate " " (c0 :: rest))) "ssh "
          && decide (lastSeg c0 ≠ "ssh")) = true) := by
        rcases h with h1 | h2
        · simp [h1]
        · simp [h2]
      rw [if_neg hg]
  · decide

/-- Witness for C5 at the concrete scenario input. -/
theorem ssh_target_follows_spec_witness :
    sshPrecond ["ssh", "-i", "/k.pem", "-p", "2222", "prod.example.com"] = true ∧
    _extract_ssh_target ["ssh", "-i", "/k.pem", "-p", "2222", "prod.example.com"]
      = sshSpecWalk false ["ssh", "-i", "/k.pem", "-p", "2222", "prod.example.com"] :=
  ⟨by decide, ssh_target_follows_spec.1 _ (by decide)⟩

/-! ## Claim C10 -/

/-- C10: whenever SSH-target extraction returns a target, that target is an
element of the input cmdline that does not start with "-" and whose path
base name is not "ssh". -/
theorem ssh_target_token_provenance (cmdline : List String) (t : String)
    (h : _extract_ssh_target cmdline = some t) :
    t ∈ cmdline ∧ strStarts t "-" = false ∧ lastSeg t ≠ "ssh" := by
  match cmdline with
  | [] => simp [_extract_ssh_target] at h
  | c0 :: rest =>
    rw [extract_eq] at h
    by_cases hg : (!containsSub (pyLower (String.intercalate " " (c0 :: rest))) "ssh "
        && decide (lastSeg c0 ≠ "ssh")) = true
    · rw [if_pos hg] at h
      exact absurd h (by simp)
    · rw [if_neg hg] at h
      exact sshLoop_sound _ _ _ h

/-- Witness for C10: on `["bash", "-c", "ssh host"]` the extractor returns
the outer command token "bash", not the embedded ssh destination. -/
theorem ssh_target_token_provenance_witness :
    "bash" ∈ ["bash", "-c", "ssh host"] ∧ strStarts "bash" "-" = false ∧
      lastSeg "bash" ≠ "ssh" :=
  ssh_target_token_provenance ["bash", "-c", "ssh host"] "bash" (by decide)

/-! ## Claim C2 -/

/-- C2 counterexample: a cmdline whose first token is "git" but whose joined
command line contains "test" is classified "🧪 test", not "📦 git". -/
theorem categorize_git_counterexample :
    _categorize_process ["git", "commit", "-m", "add test"] = "🧪 test" ∧
    ("🧪 test" : String) ≠ "📦 git" :=
  ⟨by decide, by decide⟩

/-- C2 amended: a cmdline whose first token has base name "git" is classified
"📦 git" provided its joined lowercased command line does not contain the
substrings "test", "ssh ", "codex" or "claude" (which feed earlier rules in
the priority order). -/
theorem categorize_git_amended (c0 : String) (rest : List String)
    (hbase : lastSeg (pyLower c0) = "git")
    (htest : containsSub (pyLower (String.intercalate " " (c0 :: rest))) "test" = false)
    (hssh : containsSub (pyLower (String.intercalate " " (c0 :: rest))) "ssh " = false)
    (hcodex : containsSub (pyLower (String.intercalate " " (c0 :: rest))) "codex" = false)
    (hclaude : containsSub (pyLower (String.intercalate " " (c0 :: rest))) "claude" = false) :
    _categorize_process (c0 :: rest) = "📦 git" := by
  simp only [_categorize_process]
  rw [hbase]
  simp [htest, hssh, hcodex, hclaude]

/-- Witness for C2 amended at `["git", "status"]`. -/
theorem categorize_git_amended_witness :
    lastSeg (pyLower "git") = "git" ∧
    _categorize_process ["git", "status"] = "📦 git" :=
  ⟨by decide, categorize_git_amended "git" ["status"] (by decide) (by decide)
    (by decide) (by decide) (by decide)⟩

/-! ## Claim C4 -/

/-- C4: `["npm", "run", "test:unit"]` classifies as "🔨 build": "npm" is in
the build membership set and build precedes the substring-"test" rule. -/
theorem categorize_npm_run_test_build :
    _categorize_process ["npm", "run", "test:unit"] = "🔨 build" := by decide

/-! ## Claim C3 -/

/-- C3 counterexample: on the text ending in ["Building...",
"ERROR: compilation failed", "make: *** Error 1"] the scanner does return
exactly one entry, but the signature that fires is the generic "^error:"
pattern (label "Error"), not the "compilation failed" pattern, because
"^error:" precedes it in the fixed pattern order. -/
theorem detect_compilation_counterexample :
    _detect_errors "Building...\nERROR: compilation failed\nmake: *** Error 1"
      = ["Error: `ERROR: compilation failed`"] ∧
    (detectFired "Building...\nERROR: compilation failed\nmake: *** Error 1").map
      (fun pr => pr.1.src) = ["^error:"] ∧
    ("^error:" : String) ≠ "compilation failed" :=
  ⟨by decide, by decide, by decide⟩

/-- C3 amended: that text yields exactly one entry, tagged by the generic
"^error:" signature with label "Error". -/
theorem detect_compilation_amended :
    _detect_errors "Building...\nERROR: compilation failed\nmake: *** Error 1"
      = ["Error: `ERROR: compilation failed`"] ∧
    (detectFired "Building...\nERROR: compilation failed\nmake: *** Error 1").map
      (fun pr => pr.1.desc) = ["Error"] :=
  ⟨by decide, by decide⟩

/-! ## Helper lemmas: error scanner -/

lemma contains_iff_mem (l : List String) (a : String) : l.contains a = true ↔ a ∈ l :=
  List.elem_iff

lemma firstFire_sound : ∀ (ps : List PatEntry) (seen : List String) (ll : String)
    (p : PatEntry), firstFire seen ps ll = some p →
    p ∈ ps ∧ seen.contains p.src = false := by
  intro ps
  induction ps with
  | nil => intro seen ll p h; simp [firstFire] at h
  | cons q qs ih =>
    intro seen ll p h
    simp only [firstFire] at h
    split_ifs at h with h1 h2
    · rcases ih seen ll p h with ⟨hm, hc⟩
      exact ⟨List.mem_cons_of_mem _ hm, hc⟩
    · cases h
      exact ⟨List.mem_cons_self _ _, by simpa using h1⟩
    · rcases ih seen ll p h with ⟨hm, hc⟩
      exact ⟨List.mem_cons_of_mem _ hm, hc⟩

lemma detectLoop_eq_fired : ∀ (ls seen : List String) (fired : List (PatEntry × String)),
    detectLoop seen (fired.map (fun pr => mkErr pr.1 pr.2)) ls
      = (firedLoop seen fired ls).map (fun pr => mkErr pr.1 pr.2) := by
  intro ls
  induction ls with
  | nil => intro seen fired; rfl
  | cons l ls ih =>
    intro seen fired
    rcases hf : firstFire seen error_patterns (pyStrip (pyLower l)) with _ | p
    · simp only [detectLoop, firedLoop, hf, List.length_map]
      split_ifs <;> first | rfl | exact ih seen fired
    · have hmap : (fired.map (fun pr => mkErr pr.1 pr.2)) ++ [mkErr p l]
          = (fired ++ [(p, l)]).map (fun pr => mkErr pr.1 pr.2) := by simp
      simp only [detectLoop, firedLoop, hf, hmap, List.length_map]
      split_ifs <;>
        first
          | rfl
          | exact ih seen fired
          | exact ih (seen ++ [p.src]) (fired ++ [(p, l)])

lemma detect_errors_eq_fired (text : String) :
    _detect_errors text = (detectFired text).map (fun pr => mkErr pr.1 pr.2) := by
  unfold _detect_errors detectFired
  split_ifs with h
  · rfl
  · exact detectLoop_eq_fired (recentLines text) [] []

lemma firedLoop_pairwise : ∀ (ls seen : List String) (fired : List (PatEntry × String)),
    (∀ e ∈ fired, seen.contains e.1.src = true) →
    fired.Pairwise (fun a b => a.1.src ≠ b.1.src) →
    (firedLoop seen fired ls).Pairwise (fun a b => a.1.src ≠ b.1.src) := by
  intro ls
  induction ls with
  | nil => intro seen fired _ hp; exact hp
  | cons l ls ih =>
    intro seen fired hmem hp
    rcases hf : firstFire seen error_patterns (pyStrip (pyLower l)) with _ | p
    · simp only [firedLoop, hf]
      split_ifs <;> first | exact hp | exact ih seen fired hmem hp
    · have hps := firstFire_sound _ _ _ _ hf
      have hnew : (fired ++ [(p, l)]).Pairwise (fun a b => a.1.src ≠ b.1.src) := by
        refine List.pairwise_append.mpr ⟨hp, List.pairwise_singleton _ _, ?_⟩
        intro a ha b hb
        have hb' : b = (p, l) := by simpa using hb
        subst hb'
        intro hcontra
        have : seen.contains p.src = true := hcontra ▸ hmem a ha
        rw [this] at hps
        exact absurd hps.2 (by simp)
      have hmem2 : ∀ e ∈ fired ++ [(p, l)], (seen ++ [p.src]).contains e.1.src = true := by
        intro e he
        rcases List.mem_append.mp he with h | h
        · exact (contains_iff_mem _ _).mpr
            (List.mem_append.mpr (Or.inl ((contains_iff_mem _ _).mp (hmem e h))))
        · have : e = (p, l) := by simpa using h
          subst this
          exact (contains_iff_mem _ _).mpr (List.mem_append.mpr (Or.inr (by simp)))
      simp only [firedLoop, hf]
      split_ifs <;>
        first
          | exact hnew
          | exact ih seen fired hmem hp
          | exact ih (seen ++ [p.src]) (fired ++ [(p, l)]) hmem2 hnew

lemma firedLoop_mem : ∀ (ls seen : List String) (fired : List (PatEntry × String))
    (e : PatEntry × String), e ∈ firedLoop seen fired ls →
    e ∈ fired ∨ (e.1 ∈ error_patterns ∧ e.2 ∈ ls) := by
  intro ls
  induction ls with
  | nil => intro seen fired e h; exact Or.inl h
  | cons l ls ih =>
    intro seen fired e h
    have liftTail : e ∈ fired ∨ (e.1 ∈ error_patterns ∧ e.2 ∈ ls) →
        e ∈ fired ∨ (e.1 ∈ error_patterns ∧ e.2 ∈ l :: ls) := by
      rintro (h | ⟨h1, h2⟩)
      · exact Or.inl h
      · exact Or.inr ⟨h1, List.mem_cons_of_mem _ h2⟩
    rcases hf : firstFire seen error_patterns (pyStrip (pyLower l)) with _ | p
    · simp only [firedLoop, hf] at h
      split_ifs at h <;> first | exact Or.inl h | exact liftTail (ih seen fired e h)
    · have hps := firstFire_sound _ _ _ _ hf
      have step : e ∈ fired ++ [(p, l)] →
          e ∈ fired ∨ (e.1 ∈ error_patterns ∧ e.2 ∈ l :: ls) := by
        intro hm
        rcases List.mem_append.mp hm with hm | hm
        · exact Or.inl hm
        · have : e = (p, l) := by simpa using hm
          subst this
          exact Or.inr ⟨hps.1, List.mem_cons_self _ _⟩
      simp only [firedLoop, hf] at h
      split_ifs at h
      · exact liftTail (ih seen fired e h)
      · exact liftTail (ih seen fired e h)
      · exact step h
      · rcases ih _ _ _ h with hm | ⟨hm1, hm2⟩
        · exact step hm
        · exact Or.inr ⟨hm1, List.mem_cons_of_mem _ hm2⟩

/-! ## Helper lemmas: truncate -/

lemma truncate_length_le (s : String) : (truncate s 60).length ≤ 60 := by
  simp only [truncate]
  split_ifs with h1 h2
  · simp
  · calc ((⟨(truncNorm s).take (60 - 3)⟩ : String) ++ "...").length
        = ((truncNorm s).take (60 - 3)).length + 3 := by
          rw [String.length_append]; rfl
      _ ≤ (60 - 3) + 3 := Nat.add_le_add_right (List.length_take_le _ _) 3
      _ ≤ 60 := by omega
  · have he : (String.mk (truncNorm s)).length = (truncNorm s).length := rfl
    rw [he]
    omega

lemma truncate_ellipsis (s : String) (h : (truncNorm s).length > 60) :
    ∃ pre, (truncate s 60).data = pre ++ "...".data := by
  have hs : s ≠ "" := by
    intro he
    rw [he] at h
    have h0 : (truncNorm "").length = 0 := by decide
    omega
  simp only [truncate]
  rw [if_neg hs, if_pos h]
  exact ⟨(truncNorm s).take (60 - 3), rfl⟩

lemma pairwise_ne_filter_le {α : Type} (f : α → String) :
    ∀ (l : List α), l.Pairwise (fun a b => f a ≠ f b) →
    ∀ s, (l.filter (fun x => f x == s)).length ≤ 1 := by
  intro l
  induction l with
  | nil => intro _ s; simp
  | cons a l ih =>
    intro hp s
    rcases List.pairwise_cons.mp hp with ⟨ha, hl⟩
    by_cases hf : (f a == s) = true
    · have hnil : l.filter (fun x => f x == s) = [] := by
        refine List.filter_eq_nil_iff.mpr ?_
        intro x hx hxs
        have h1 : f a = s := by simpa using hf
        have h2 : f x = s := by simpa using hxs
        exact ha x hx (h1.trans h2.symm)
      have hcons : List.filter (fun x => f x == s) (a :: l)
          = a :: List.filter (fun x => f x == s) l := List.filter_cons_of_pos hf
      rw [hcons, hnil]
      simp
    · have hcons : List.filter (fun x => f x == s) (a :: l)
          = List.filter (fun x => f x == s) l := List.filter_cons_of_neg hf
      rw [hcons]
      exact ih hl s

/-! ## Claim C6 -/

/-- C6: error scanning deduplicates by signature: the fired events of a scan
have pairwise-distinct pattern sources, so each signature contributes at most
one description; the output of `_detect_errors` is exactly the rendering of
those fired events, hence feeding the same triggering line twice yields one
description for that signature, not two. -/
theorem detect_errors_dedup (text : String) :
    (detectFired text).Pairwise (fun a b => a.1.src ≠ b.1.src) ∧
    (∀ s : String, ((detectFired text).filter (fun pr => pr.1.src == s)).length ≤ 1) ∧
    _detect_errors text = (detectFired text).map (fun pr => mkErr pr.1 pr.2) := by
  have hpw : (detectFired text).Pairwise (fun a b => a.1.src ≠ b.1.src) := by
    unfold detectFired
    split_ifs
    · exact List.Pairwise.nil
    · exact firedLoop_pairwise _ [] [] (by simp) List.Pairwise.nil
  exact ⟨hpw, fun s =>
    pairwise_ne_filter_le (fun pr : PatEntry × String => pr.1.src) _ hpw s,
    detect_errors_eq_fired text⟩

/-! ## Claim C9 -/

/-- C9: every error description returned by the scanner is of the form
"{label}: `{excerpt}`" for a pattern of the fixed table and a line of the
30-line recency window, where the excerpt is the ANSI-stripped, whitespace-
stripped line truncated to at most 60 characters and suffixed with "..."
whenever truncation occurred. -/
theorem detect_errors_entry_shape (text : String) (e : String)
    (he : e ∈ _detect_errors text) :
    ∃ p l, p ∈ error_patterns ∧ l ∈ recentLines text ∧
      e = p.desc ++ ": `" ++ truncate (stripAnsi (pyStrip l)) 60 ++ "`" ∧
      (truncate (stripAnsi (pyStrip l)) 60).length ≤ 60 ∧
      ((truncNorm (stripAnsi (pyStrip l))).length > 60 →
        ∃ pre, (truncate (stripAnsi (pyStrip l)) 60).data = pre ++ "...".data) := by
  rw [detect_errors_eq_fired] at he
  rcases List.mem_map.mp he with ⟨pr, hpr, rfl⟩
  have hmem : pr.1 ∈ error_patterns ∧ pr.2 ∈ recentLines text := by
    unfold detectFired at hpr
    split_ifs at hpr with ht
    · cases hpr
    · rcases firedLoop_mem _ _ _ _ hpr with hm | hg
      · cases hm
      · exact hg
  exact ⟨pr.1, pr.2, hmem.1, hmem.2, rfl, truncate_length_le _,
    fun hlen => truncate_ellipsis _ hlen⟩

/-- Witness for C9 on the concrete text "fatal: oops". -/
theorem detect_errors_entry_shape_witness :
    "Fatal error: `fatal: oops`" ∈ _detect_errors "fatal: oops" ∧
    (∃ p l, p ∈ error_patterns ∧ l ∈ recentLines "fatal: oops" ∧
      "Fatal error: `fatal: oops`"
        = p.desc ++ ": `" ++ truncate (stripAnsi (pyStrip l)) 60 ++ "`" ∧
      (truncate (stripAnsi (pyStrip l)) 60).length ≤ 60 ∧
      ((truncNorm (stripAnsi (pyStrip l))).length > 60 →
        ∃ pre, (truncate (stripAnsi (pyStrip l)) 60).data = pre ++ "...".data)) :=
  ⟨by decide, detect_errors_entry_shape "fatal: oops" "Fatal error: `fatal: oops`"
    (by decide)⟩

/-! ## Helper lemmas: age formatting -/

lemma parseDigits_append (l : List Char) (c : Char) :
    parseDigits (l ++ [c]) = parseDigits l * 10 + (c.toNat - 48) := by
  simp [parseDigits, List.foldl_append]

lemma digitChar_spec (n : Nat) (h : n < 10) :
    (digitChar n).isDigit = true ∧ (digitChar n).toNat - 48 = n := by
  interval_cases n <;> exact ⟨by decide, by decide⟩

lemma natDigitsF_spec : ∀ (f n : Nat), n < f →
    (∀ c ∈ natDigitsF f n, c.isDigit = true) ∧ parseDigits (natDigitsF f n) = n := by
  intro f
  induction f with
  | zero => intro n h; omega
  | succ f ih =>
    intro n h
    by_cases h10 : n < 10
    · constructor
      · intro c hc
        simp [natDigitsF, h10] at hc
        subst hc
        exact (digitChar_spec n h10).1
      · have hd := (digitChar_spec n h10).2
        simp [natDigitsF, h10, parseDigits]
        omega
    · have hlt : n / 10 < f := by omega
      rcases ih (n / 10) hlt with ⟨ih1, ih2⟩
      have hmod := digitChar_spec (n % 10) (by omega)
      constructor
      · intro c hc
        simp [natDigitsF, h10] at hc
        rcases hc with hc | hc
        · exact ih1 c hc
        · subst hc; exact hmod.1
      · simp only [natDigitsF, if_neg h10]
        rw [parseDigits_append, ih2]
        omega

lemma takeWhile_digits_append (l r : List Char) (hl : ∀ c ∈ l, c.isDigit = true)
    (hr : ∀ c, r.head? = some c → c.isDigit = false) :
    (l ++ r).takeWhile Char.isDigit = l := by
  induction l with
  | nil =>
    cases r with
    | nil => rfl
    | cons c cs =>
      simp [List.takeWhile_cons, hr c rfl]
  | cons a l ih =>
    have ha : a.isDigit = true := hl a (List.mem_cons_self _ _)
    simp only [List.cons_append, List.takeWhile_cons, ha, if_true]
    rw [ih (fun c hc => hl c (List.mem_cons_of_mem _ hc))]

lemma denoteAge_natStr (n : Nat) (suf : String) (c0 : Char) (cs : List Char)
    (hsuf : suf.data = c0 :: cs) (hc0 : c0.isDigit = false) :
    ((natStr n ++ suf).data.takeWhile Char.isDigit = natDigitsF (n + 1) n) ∧
    parseDigits (natDigitsF (n + 1) n) = n ∧
    ((natStr n ++ suf).data.drop (natDigitsF (n + 1) n).length = suf.data) := by
  have hspec := natDigitsF_spec (n + 1) n (by omega)
  have hdata : (natStr n ++ suf).data = natDigitsF (n + 1) n ++ suf.data := rfl
  have htake : (natStr n ++ suf).data.takeWhile Char.isDigit = natDigitsF (n + 1) n := by
    rw [hdata, hsuf]
    refine takeWhile_digits_append _ _ hspec.1 ?_
    intro c hc
    cases hc
    exact hc0
  refine ⟨htake, hspec.2, ?_⟩
  rw [hdata]
  exact List.drop_left _ _

lemma denoteAge_format_days (n : Nat) :
    denoteAge (natStr n ++ "d ago") = n * 86400 := by
  obtain ⟨htake, hparse, hdrop⟩ := denoteAge_natStr n "d ago" 'd' " ago".data rfl (by decide)
  simp only [denoteAge]
  rw [htake, hdrop, if_pos rfl, hparse]

lemma denoteAge_format_hours (n : Nat) :
    denoteAge (natStr n ++ "h ago") = n * 3600 := by
  obtain ⟨htake, hparse, hdrop⟩ := denoteAge_natStr n "h ago" 'h' " ago".data rfl (by decide)
  simp only [denoteAge]
  rw [htake, hdrop, if_neg (by decide), if_pos rfl, hparse]

lemma denoteAge_format_minutes (n : Nat) :
    denoteAge (natStr n ++ "m ago") = n * 60 := by
  obtain ⟨htake, hparse, hdrop⟩ := denoteAge_natStr n "m ago" 'm' " ago".data rfl (by decide)
  simp only [denoteAge]
  rw [htake, hdrop, if_neg (by decide), if_neg (by decide), if_pos rfl, hparse]

lemma denoteAge_format_seconds (n : Nat) :
    denoteAge (natStr n ++ "s ago") = n := by
  obtain ⟨htake, hparse, hdrop⟩ := denoteAge_natStr n "s ago" 's' " ago".data rfl (by decide)
  simp only [denoteAge]
  rw [htake, hdrop, if_neg (by decide), if_neg (by decide), if_neg (by decide),
    if_pos rfl, hparse]

lemma denoteAge_format (t now : Nat) (ht : t ≠ 0) :
    denoteAge (_format_age t now) = ageSecs ((now - t) / 1000000000) := by
  simp only [_format_age, if_neg ht, ageSecs]
  by_cases h1 : (now - t) / 1000000000 / 86400 > 0
  · rw [if_pos h1, if_pos h1, denoteAge_format_days]
  · rw [if_neg h1, if_neg h1]
    by_cases h2 : (now - t) / 1000000000 % 86400 ≥ 3600
    · rw [if_pos h2, if_pos h2, denoteAge_format_hours]
    · rw [if_neg h2, if_neg h2]
      by_cases h3 : (now - t) / 1000000000 % 86400 ≥ 60
      · rw [if_pos h3, if_pos h3, denoteAge_format_minutes]
      · rw [if_neg h3, if_neg h3, denoteAge_format_seconds]

lemma ageSecs_mono (a b : Nat) (h : a ≤ b) : ageSecs a ≤ ageSecs b := by
  simp only [ageSecs]
  split_ifs <;> omega

/-! ## Claim C8 -/

/-- C8: age formatting is monotonic: for creation timestamps t1 < t2 (both in
the past relative to the same current time), the interval denoted by the
formatted age of t1 is at least the interval denoted by the formatted age
of t2. -/
theorem format_age_monotonic (now t1 t2 : Nat) (h0 : 0 < t1) (h12 : t1 < t2)
    (h2 : t2 ≤ now) :
    denoteAge (_format_age t2 now) ≤ denoteAge (_format_age t1 now) := by
  rw [denoteAge_format t1 now (by omega), denoteAge_format t2 now (by omega)]
  exact ageSecs_mono _ _ (Nat.div_le_div_right (Nat.sub_le_sub_left (Nat.le_of_lt h12) now))

/-- Witness for C8: at 1s vs 100s of age before the same instant. -/
theorem format_age_monotonic_witness :
    0 < 1000000000 ∧ 1000000000 < 100000000000 ∧ 100000000000 ≤ 200000000000 ∧
    denoteAge (_format_age 100000000000 200000000000)
      ≤ denoteAge (_format_age 1000000000 200000000000) :=
  ⟨by decide, by decide, by decide,
    format_age_monotonic 200000000000 1000000000 100000000000
      (by decide) (by decide) (by decide)⟩

/-! ## Helper lemmas: report synthesizer -/

lemma processWindow_self (tp : Transport) (lines : Nat) (extent : String) (tab : Tab)
    (st : SumSt) (win : Window) (h : win.isSelf = true) :
    processWindow tp lines extent true tab st win = st := by
  unfold processWindow
  rw [h]
  rfl

lemma windows_fold_self (tp : Transport) (lines : Nat) (extent : String) (tab : Tab) :
    ∀ (ws : List Window) (st : SumSt), (∀ w ∈ ws, w.isSelf = true) →
    ws.foldl (processWindow tp lines extent true tab) st = st := by
  intro ws
  induction ws with
  | nil => intro st _; rfl
  | cons w ws ih =>
    intro st hall
    rw [List.foldl_cons,
      processWindow_self tp lines extent tab st w (hall w (List.mem_cons_self _ _))]
    exact ih st (fun x hx => hall x (List.mem_cons_of_mem _ hx))

lemma tabs_fold_self (tp : Transport) (lines : Nat) (extent : String) :
    ∀ (ts : List Tab) (st : SumSt), (∀ t ∈ ts, ∀ w ∈ t.windows, w.isSelf = true) →
    ts.foldl (fun s2 tab => tab.windows.foldl
      (processWindow tp lines extent true tab) s2) st = st := by
  intro ts
  induction ts with
  | nil => intro st _; rfl
  | cons t ts ih =>
    intro st hall
    rw [List.foldl_cons,
      windows_fold_self tp lines extent t t.windows st (hall t (List.mem_cons_self _ _))]
    exact ih st (fun x hx => hall x (List.mem_cons_of_mem _ hx))

lemma tree_fold_self (tp : Transport) (lines : Nat) (extent : String) :
    ∀ (os : List OSWindow) (st : SumSt),
    (∀ osw ∈ os, ∀ t ∈ osw.tabs, ∀ w ∈ t.windows, w.isSelf = true) →
    os.foldl (fun s osw => osw.tabs.foldl
      (fun s2 tab => tab.windows.foldl (processWindow tp lines extent true tab) s2) s)
      st = st := by
  intro os
  induction os with
  | nil => intro st _; rfl
  | cons o os ih =>
    intro st hall
    rw [List.foldl_cons,
      tabs_fold_self tp lines extent o.tabs st (hall o (List.mem_cons_self _ _))]
    exact ih st (fun x hx => hall x (List.mem_cons_of_mem _ hx))

/-! ## Claim C7 -/

/-- C7: when the session-tree traversal yields zero eligible windows (here:
every window excluded as self), the report is exactly the fixed header
followed by the single "no windows" notice, with no aggregate block. -/
theorem summary_no_windows (tp : Transport) (lines : Nat) (extent : String)
    (tree : List OSWindow) (hls : tp.lsResult = .ok tree)
    (hall : ∀ osw ∈ tree, ∀ t ∈ osw.tabs, ∀ w ∈ t.windows, w.isSelf = true) :
    summary tp lines extent true = String.intercalate "\n"
      ["# Kitty Terminal Summary\n",
       "*Generated: " ++ tp.nowStr ++ "*\n",
       "*Showing last " ++ natStr lines ++ " lines from each window (extent: "
         ++ extent ++ ")*\n",
       "---\n",
       "*No windows found (or all windows excluded)*"] := by
  simp only [summary, hls]
  rw [tree_fold_self tp lines extent tree ⟨summaryHeader tp lines extent, 0, [], []⟩ hall]
  simp [summaryHeader]




/-- Witness for C7 on a one-window tree whose only window is self. -/
theorem summary_no_windows_witness :
    summary tpSelf 20 "screen" true = String.intercalate "\n"
      ["# Kitty Terminal Summary\n",
       "*Generated: " ++ tpSelf.nowStr ++ "*\n",
       "*Showing last " ++ natStr 20 ++ " lines from each window (extent: "
         ++ "screen" ++ ")*\n",
       "---\n",
       "*No windows found (or all windows excluded)*"] :=
  summary_no_windows tpSelf 20 "screen" selfTree rfl (by decide)

/-! ## Claim C1 -/

/-- C1 amended: if the session-listing call fails (or times out), `summary`
aborts with the single error message "Error: {msg}" and nothing partial. -/
theorem summary_ls_error_aborts (tp : Transport) (lines : Nat) (extent : String)
    (exclude_self : Bool) (err : String) (h : tp.lsResult = .error err) :
    summary tp lines extent exclude_self = "Error: " ++ err := by
  simp only [summary, h]


/-- Witness for the amended C1 on a failing session listing. -/
theorem summary_ls_error_aborts_witness :
    tpLsFail.lsResult = Except.error "Command timed out" ∧
    summary tpLsFail 20 "screen" true = "Error: " ++ "Command timed out" :=
  ⟨rfl, summary_ls_error_aborts tpLsFail 20 "screen" true "Command timed out" rfl⟩



/-- C1 counterexample: a per-window text-retrieval failure does NOT abort the
report: with the only window's get-text call failing, `summary` still
returns a full report (beginning with the normal header), not the single
error message. -/
theorem summary_text_error_no_abort :
    get_text tpTextFail 1 "screen" = "Error: Command timed out" ∧
    summary tpTextFail 20 "screen" true ≠ "Error: Command timed out" ∧
    strStarts (summary tpTextFail 20 "screen" true) "# Kitty Terminal Summary" = true :=
  ⟨by decide, by decide, by decide⟩
